import Mathlib

/-!
Verification of the response-translation core of the lagon runtime
(src/crates/runtime_utils/src/response.rs, function handle_response).

The channel, the spawned forwarder task and the body sink are embedded
shallowly: a translation is modelled as a pure function from the complete
ordered list of messages that the result channel delivers before closing
to (a) the list of ResponseEvents handed to the notifier, in order,
(b) the list of chunks written to the body-sink channel, in order, and
(c) the value returned to the caller: the response object, or an error
when a channel receive fails.  Messages within the channel are delivered
in send order and consumed first by the translator, then exclusively by
the forwarder, so this sequential model captures the observable behavior.
-/

/-- Modelled from the spec: the response record produced by the execution
unit (type lagon_runtime_http::Response, whose definition is not under
src/): header collection, status code, and the body as a byte sequence
(bytes are modelled as Nat). -/
structure Response where
  status : Nat
  headers : List (String × String)
  body : List Nat
deriving Repr, DecidableEq

/-- Modelled from the spec: the length of a complete Response is the length
of its body in bytes. -/
def Response.len (r : Response) : Nat :=
  r.body.length

/-- Modelled from the spec (lagon_runtime_http::StreamResult, not under
src/): one fragment of a streamed result.  Elapsed durations are modelled
by their microsecond count, so the as_micros conversion in the source is
the identity here. -/
inductive StreamResult where
  | Start : Response → StreamResult
  | Data : List Nat → StreamResult
  | Done : Nat → StreamResult
deriving Repr, DecidableEq

/-- Modelled from the spec (lagon_runtime_http::RunResult, not under src/):
the tagged union carried by the result channel. -/
inductive RunResult where
  | Response : Response → Option Nat → RunResult
  | Stream : StreamResult → RunResult
  | Timeout : RunResult
  | MemoryLimit : RunResult
  | Error : String → RunResult
  | NotFound : RunResult
deriving Repr, DecidableEq

/-- The classified outcome event reported to the notifier
(src/crates/runtime_utils/src/response.rs, enum ResponseEvent). -/
inductive ResponseEvent where
  | Bytes : Nat → Option Nat → ResponseEvent
  | StreamDoneNoDataError : ResponseEvent
  | UnexpectedStreamResult : RunResult → ResponseEvent
  | LimitsReached : RunResult → ResponseEvent
  | Error : RunResult → ResponseEvent
deriving Repr, DecidableEq

/-- Modelled from the spec: the static error pages are plain byte content
injected at build time (files under public/, not present under src/);
they are modelled as distinct abstract byte sequences. -/
def PAGE_404 : List Nat := [4, 0, 4]

/-- Modelled from the spec: static forbidden page, defined but unused by
this path. -/
def PAGE_403 : List Nat := [4, 0, 3]

/-- Modelled from the spec: static bad-gateway page. -/
def PAGE_502 : List Nat := [5, 0, 2]

/-- Modelled from the spec: static internal-error page. -/
def PAGE_500 : List Nat := [5, 0, 0]

/-- Well-known path constant recognized but not acted upon inside this
core (src/crates/runtime_utils/src/response.rs). -/
def FAVICON_URL : String := "/favicon.ico"

/-- The HTTP-shaped response object handed back to the caller of
handle_response: status code, header collection, and the fully
materialized body.  For a streamed response the hyper body wraps the
body-sink channel, so its materialized content is the concatenation of
every chunk the sink receives. -/
structure HyperResponse where
  status : Nat
  headers : List (String × String)
  body : List Nat
deriving Repr, DecidableEq

/-- The state threaded through the embedded forwarder loop: the running
byte total, the events emitted so far (in order), the chunks written to
the body sink so far (in order), and the content of the capacity-one
response handoff channel, which retains only the first Start response
sent on it (the translator receives exactly once). -/
structure ForwardState where
  totalBytes : Nat
  events : List ResponseEvent
  sink : List (List Nat)
  responseSlot : Option Response
deriving Repr, DecidableEq

/-- The capacity-one handoff keeps the first response sent on it: a later
send does not displace an earlier one before the single receive. -/
def putFirst : Option Response → Response → Option Response
  | none, r => some r
  | some r0, _ => some r0

/-- Embedding of the spawned forwarder loop of handle_response
(src/crates/runtime_utils/src/response.rs, lines 61-95): processes the
remaining channel messages in order.  Start sends the response on the
handoff channel (only the first matters); Data adds the chunk length to
the total and forwards the chunk to the sink; Done emits
Bytes(total, elapsed) and writes an empty terminating chunk, and the loop
continues with the next message (the source has no break in this arm);
any non-stream message emits UnexpectedStreamResult, writes the
terminating empty chunk and breaks out of the loop. -/
def forward : List RunResult → ForwardState → ForwardState
  | [], st => st
  | .Stream (.Start r) :: rest, st =>
      forward rest { st with responseSlot := putFirst st.responseSlot r }
  | .Stream (.Data b) :: rest, st =>
      forward rest { st with
        totalBytes := st.totalBytes + b.length
        sink := st.sink ++ [b] }
  | .Stream (.Done e) :: rest, st =>
      forward rest { st with
        events := st.events ++ [.Bytes st.totalBytes (some e)]
        sink := st.sink ++ [[]] }
  | msg :: _, st =>
      { st with
        events := st.events ++ [.UnexpectedStreamResult msg]
        sink := st.sink ++ [[]] }

/-- The observable outcome of one translation: the events delivered to the
notifier in order, the chunks written to the body sink in order, and the
result returned to the caller (a response object, or an error when a
channel receive fails). -/
structure HandleOutcome where
  events : List ResponseEvent
  sink : List (List Nat)
  result : Except String HyperResponse

/-- Embedding of the translator's handling of the first stream signal
(src/crates/runtime_utils/src/response.rs, lines 43-59): Start sends the
response on the handoff channel; Data counts the chunk and writes it to
the sink; Done emits StreamDoneNoDataError and writes the empty
terminating chunk. -/
def initState : StreamResult → ForwardState
  | .Start r =>
      { totalBytes := 0, events := [], sink := [], responseSlot := some r }
  | .Data b =>
      { totalBytes := b.length, events := [], sink := [b], responseSlot := none }
  | .Done _ =>
      { totalBytes := 0, events := [.StreamDoneNoDataError], sink := [[]],
        responseSlot := none }

/-- Embedding of the tail of the streaming branch
(src/crates/runtime_utils/src/response.rs, lines 97-100): the translator
awaits the handoff channel; if a Start was observed its response supplies
the status and headers and the hyper body wraps the sink stream, otherwise
the handoff receive fails when the forwarder task ends and drops its
sender, and the error propagates to the caller. -/
def streamOutcome (st : ForwardState) : HandleOutcome :=
  { events := st.events
    sink := st.sink
    result :=
      match st.responseSlot with
      | some r => .ok { status := r.status, headers := r.headers, body := st.sink.flatten }
      | none => .error "response handoff closed" }

/-- Embedding of handle_response (src/crates/runtime_utils/src/response.rs,
lines 25-123) applied to the complete ordered list of messages the result
channel delivers before closing.  An empty channel makes the first receive
fail.  A first Stream message enters streaming mode: the translator handles
the initial signal, the forwarder drains the rest, and the translator
finally awaits the handoff.  Non-stream first messages never read the rest
of the channel. -/
def handle_response : List RunResult → HandleOutcome
  | [] => { events := [], sink := [], result := .error "channel closed" }
  | .Stream s :: rest => streamOutcome (forward rest (initState s))
  | .Response r elapsed :: _ =>
      { events := [.Bytes r.len elapsed]
        sink := []
        result := .ok { status := r.status, headers := r.headers, body := r.body } }
  | .Timeout :: _ =>
      { events := [.LimitsReached .Timeout]
        sink := []
        result := .ok { status := 502, headers := [], body := PAGE_502 } }
  | .MemoryLimit :: _ =>
      { events := [.LimitsReached .MemoryLimit]
        sink := []
        result := .ok { status := 502, headers := [], body := PAGE_502 } }
  | .Error d :: _ =>
      { events := [.Error (.Error d)]
        sink := []
        result := .ok { status := 500, headers := [], body := PAGE_500 } }
  | .NotFound :: _ =>
      { events := [], sink := []
        result := .ok { status := 404, headers := [], body := PAGE_404 } }

/-- Holds when the first Done message of the list, if any, is its final
message: the stream has no traffic after its terminal signal. -/
def doneIsLast : List RunResult → Bool
  | [] => true
  | .Stream (.Done _) :: rest => rest.isEmpty
  | _ :: rest => doneIsLast rest

/-- Holds when the forwarder, draining this tail, reaches a condition that
emits an event: a Done signal, or a non-stream message, before the channel
closes. -/
def tailTerminates : List RunResult → Bool
  | [] => false
  | .Stream (.Start _) :: rest => tailTerminates rest
  | .Stream (.Data _) :: rest => tailTerminates rest
  | _ :: _ => true

/-- Holds when the translation of this message list follows a success or
known-failure path that reports to the notifier: a buffered response, a
limit signal, an execution error, or a streaming run that reaches a
terminal condition.  NotFound, the empty channel and a stream closed
without a terminal condition are the silent paths. -/
def terminalOutcome : List RunResult → Bool
  | [] => false
  | .NotFound :: _ => false
  | .Stream (.Done _) :: _ => true
  | .Stream _ :: rest => tailTerminates rest
  | _ :: _ => true

/-- Holds when the tail consists only of Start and Data signals: the
forwarder drains it to channel closure without ever emitting an event. -/
def silentTail : List RunResult → Bool
  | [] => true
  | .Stream (.Start _) :: rest => silentTail rest
  | .Stream (.Data _) :: rest => silentTail rest
  | _ :: _ => false

/-- Holds when no Start signal occurs anywhere in the list. -/
def noStart : List RunResult → Bool
  | [] => true
  | .Stream (.Start _) :: _ => false
  | _ :: rest => noStart rest

/-- Holds for the stream signals other than Done. -/
def notDoneSignal : StreamResult → Bool
  | .Done _ => false
  | _ => true

/-- Holds for the stream signals other than Start. -/
def notStartSignal : StreamResult → Bool
  | .Start _ => false
  | _ => true

/-- C2: for every first channel message RunResult::Response(response,
elapsed), handle_response returns a response with exactly that status,
headers and body, and the notifier is invoked exactly once with
Bytes(len(body), elapsed); the rest of the channel is never read. -/
theorem response_first_buffered (r : Response) (elapsed : Option Nat)
    (rest : List RunResult) :
    (handle_response (.Response r elapsed :: rest)).events
        = [.Bytes r.body.length elapsed]
    ∧ (handle_response (.Response r elapsed :: rest)).result
        = .ok { status := r.status, headers := r.headers, body := r.body } :=
  ⟨rfl, rfl⟩

/-- C7: a first channel message of Timeout or MemoryLimit yields a response
with status 502 whose body is the fixed bad-gateway page content, and the
notifier is invoked exactly once with LimitsReached carrying that
message. -/
theorem limits_reached_502 (rest rest2 : List RunResult) :
    ((handle_response (.Timeout :: rest)).events
        = [.LimitsReached .Timeout]
      ∧ (handle_response (.Timeout :: rest)).result
        = .ok { status := 502, headers := [], body := PAGE_502 })
    ∧ ((handle_response (.MemoryLimit :: rest2)).events
        = [.LimitsReached .MemoryLimit]
      ∧ (handle_response (.MemoryLimit :: rest2)).result
        = .ok { status := 502, headers := [], body := PAGE_502 }) :=
  ⟨⟨rfl, rfl⟩, ⟨rfl, rfl⟩⟩

/-- C8: a first channel message of NotFound yields a response with status
404 whose body is the fixed not-found page content, and the notifier is
never invoked on this path. -/
theorem not_found_404 (rest : List RunResult) :
    (handle_response (.NotFound :: rest)).events = []
    ∧ (handle_response (.NotFound :: rest)).result
        = .ok { status := 404, headers := [], body := PAGE_404 } :=
  ⟨rfl, rfl⟩

/-- Draining a run of Data signals adds their lengths to the running total
and appends their payloads, in order, to the sink; no event is emitted and
the handoff slot is untouched. -/
theorem forward_data_map (ds : List (List Nat)) (st : ForwardState) :
    forward (ds.map (fun b => .Stream (.Data b))) st
      = { st with
          totalBytes := st.totalBytes + (ds.map List.length).sum
          sink := st.sink ++ ds } := by
  induction ds generalizing st with
  | nil => simp [forward]
  | cons b ds ih =>
      simp [forward, ih, Nat.add_assoc, List.append_assoc]

/-- Once the handoff slot holds a response, the forwarder never replaces
it: the first Start observed permanently fixes the response. -/
theorem forward_responseSlot_some (msgs : List RunResult) (st : ForwardState)
    (r : Response) (h : st.responseSlot = some r) :
    (forward msgs st).responseSlot = some r := by
  induction msgs generalizing st with
  | nil => simpa [forward] using h
  | cons m rest ih =>
      cases m with
      | Stream s =>
          cases s with
          | Start r2 =>
              simp only [forward]
              exact ih _ (by rw [h]; rfl)
          | Data b => simp only [forward]; exact ih _ h
          | Done e => simp only [forward]; exact ih _ h
      | Response r2 e => simp only [forward]; exact h
      | Timeout => simp only [forward]; exact h
      | MemoryLimit => simp only [forward]; exact h
      | Error d => simp only [forward]; exact h
      | NotFound => simp only [forward]; exact h

/-- The forwarder only appends to the body sink: chunks already written
are never dropped or reordered. -/
theorem forward_sink_prefix (msgs : List RunResult) (st : ForwardState) :
    ∃ t, (forward msgs st).sink = st.sink ++ t := by
  induction msgs generalizing st with
  | nil => exact ⟨[], by simp [forward]⟩
  | cons m rest ih =>
      cases m with
      | Stream s =>
          cases s with
          | Start r2 =>
              obtain ⟨t, ht⟩ := ih { st with responseSlot := putFirst st.responseSlot r2 }
              exact ⟨t, by simp only [forward]; exact ht⟩
          | Data b =>
              obtain ⟨t, ht⟩ := ih { st with
                totalBytes := st.totalBytes + b.length, sink := st.sink ++ [b] }
              exact ⟨b :: t, by simp only [forward]; rw [ht]; simp⟩
          | Done e =>
              obtain ⟨t, ht⟩ := ih { st with
                events := st.events ++ [.Bytes st.totalBytes (some e)]
                sink := st.sink ++ [[]] }
              exact ⟨[] :: t, by simp only [forward]; rw [ht]; simp⟩
      | Response r2 e => exact ⟨[[]], by simp [forward]⟩
      | Timeout => exact ⟨[[]], by simp [forward]⟩
      | MemoryLimit => exact ⟨[[]], by simp [forward]⟩
      | Error d => exact ⟨[[]], by simp [forward]⟩
      | NotFound => exact ⟨[[]], by simp [forward]⟩

/-- Event accounting for the forwarder: when no traffic follows a Done
signal, draining the tail emits exactly one event if the tail reaches a
terminal condition (a Done or an unexpected non-stream message) and none
if the channel closes first. -/
theorem forward_events_length (msgs : List RunResult) (st : ForwardState)
    (h : doneIsLast msgs = true) :
    (forward msgs st).events.length
      = st.events.length + (if tailTerminates msgs then 1 else 0) := by
  induction msgs generalizing st with
  | nil => simp [forward, tailTerminates]
  | cons m rest ih =>
      cases m with
      | Stream s =>
          cases s with
          | Start r2 =>
              simp only [forward]
              rw [ih _ (by simpa [doneIsLast] using h)]
              simp [tailTerminates]
          | Data b =>
              simp only [forward]
              rw [ih _ (by simpa [doneIsLast] using h)]
              simp [tailTerminates]
          | Done e =>
              have hrest : rest = [] := by
                simpa [doneIsLast, List.isEmpty_iff] using h
              subst hrest
              simp [forward, tailTerminates]
      | Response r2 e => simp [forward, tailTerminates]
      | Timeout => simp [forward, tailTerminates]
      | MemoryLimit => simp [forward, tailTerminates]
      | Error d => simp [forward, tailTerminates]
      | NotFound => simp [forward, tailTerminates]

/-- Draining a tail made only of Start and Data signals emits no event. -/
theorem forward_events_silent (msgs : List RunResult) (st : ForwardState)
    (h : silentTail msgs = true) :
    (forward msgs st).events = st.events := by
  induction msgs generalizing st with
  | nil => simp [forward]
  | cons m rest ih =>
      cases m with
      | Stream s =>
          cases s with
          | Start r2 =>
              simp only [forward]
              exact ih _ (by simpa [silentTail] using h)
          | Data b =>
              simp only [forward]
              exact ih _ (by simpa [silentTail] using h)
          | Done e => simp [silentTail] at h
      | Response r2 e => simp [silentTail] at h
      | Timeout => simp [silentTail] at h
      | MemoryLimit => simp [silentTail] at h
      | Error d => simp [silentTail] at h
      | NotFound => simp [silentTail] at h

/-- Without a Start signal the forwarder never fills the handoff slot. -/
theorem forward_responseSlot_noStart (msgs : List RunResult) (st : ForwardState)
    (h : noStart msgs = true) :
    (forward msgs st).responseSlot = st.responseSlot := by
  induction msgs generalizing st with
  | nil => simp [forward]
  | cons m rest ih =>
      cases m with
      | Stream s =>
          cases s with
          | Start r2 => simp [noStart] at h
          | Data b =>
              simp only [forward]
              exact ih _ (by simpa [noStart] using h)
          | Done e =>
              simp only [forward]
              exact ih _ (by simpa [noStart] using h)
      | Response r2 e => simp [forward]
      | Timeout => simp [forward]
      | MemoryLimit => simp [forward]
      | Error d => simp [forward]
      | NotFound => simp [forward]

/-- Draining a run of Data signals followed by further traffic first adds
the chunk lengths and payloads, then continues with the rest. -/
theorem forward_data_map_append (ds : List (List Nat)) (l2 : List RunResult)
    (st : ForwardState) :
    forward (ds.map (fun b => .Stream (.Data b)) ++ l2) st
      = forward l2 { st with
          totalBytes := st.totalBytes + (ds.map List.length).sum
          sink := st.sink ++ ds } := by
  induction ds generalizing st with
  | nil => simp [forward]
  | cons b ds ih =>
      simp [forward, ih, Nat.add_assoc, List.append_assoc]

/-- When the handoff slot holds a response, the caller gets that response
bound to the sink stream. -/
theorem streamOutcome_result_some (st : ForwardState) (r : Response)
    (h : st.responseSlot = some r) :
    (streamOutcome st).result
      = .ok { status := r.status, headers := r.headers, body := st.sink.flatten } := by
  simp [streamOutcome, h]

/-- When the handoff slot is empty, the handoff receive fails and the
caller gets an error. -/
theorem streamOutcome_result_none (st : ForwardState)
    (h : st.responseSlot = none) :
    (streamOutcome st).result = .error "response handoff closed" := by
  simp [streamOutcome, h]

/-- C3: for every well-formed stream in which Start precedes all Data
chunks and ends with Done, the returned response carries the status and
headers of Start, the body sink receives each Data payload in arrival
order followed by the terminating empty chunk (so the materialized body is
their concatenation), and the terminal Bytes event reports the sum of all
Data payload lengths. -/
theorem stream_start_data_done_exact (r : Response) (chunks : List (List Nat))
    (e : Nat) :
    (handle_response (.Stream (.Start r)
        :: (chunks.map (fun b => .Stream (.Data b)) ++ [.Stream (.Done e)]))).sink
      = chunks ++ [[]]
    ∧ (handle_response (.Stream (.Start r)
        :: (chunks.map (fun b => .Stream (.Data b)) ++ [.Stream (.Done e)]))).events
      = [.Bytes (chunks.map List.length).sum (some e)]
    ∧ (handle_response (.Stream (.Start r)
        :: (chunks.map (fun b => .Stream (.Data b)) ++ [.Stream (.Done e)]))).result
      = .ok { status := r.status, headers := r.headers, body := chunks.flatten } := by
  have hL : forward (chunks.map (fun b => .Stream (.Data b)) ++ [.Stream (.Done e)])
        (initState (.Start r))
      = { totalBytes := (chunks.map List.length).sum
          events := [.Bytes (chunks.map List.length).sum (some e)]
          sink := chunks ++ [[]]
          responseSlot := some r } := by
    rw [forward_data_map_append]
    simp [initState, forward]
  have he : handle_response (.Stream (.Start r)
        :: (chunks.map (fun b => .Stream (.Data b)) ++ [.Stream (.Done e)]))
      = streamOutcome (forward (chunks.map (fun b => .Stream (.Data b))
          ++ [.Stream (.Done e)]) (initState (.Start r))) := rfl
  rw [he, hL]
  refine ⟨rfl, rfl, ?_⟩
  rw [streamOutcome_result_some _ r rfl]
  simp

/-- C4: for every stream in which one or more Data chunks arrive before
Start, the body sink still receives those early chunks first, in their
original arrival order, with none dropped (so the materialized body begins
with their concatenation), and the returned response carries the status
and headers of the first Start observed, whatever traffic follows it. -/
theorem data_before_start_kept (pre : List (List Nat)) (hpre : pre ≠ [])
    (r : Response) (post : List RunResult) :
    (∃ t, (handle_response (pre.map (fun b => .Stream (.Data b))
        ++ .Stream (.Start r) :: post)).sink = pre ++ t)
    ∧ ∃ resp, (handle_response (pre.map (fun b => .Stream (.Data b))
        ++ .Stream (.Start r) :: post)).result = .ok resp
      ∧ resp.status = r.status ∧ resp.headers = r.headers
      ∧ ∃ bt, resp.body = pre.flatten ++ bt := by
  obtain ⟨b0, pre1, rfl⟩ : ∃ b0 pre1, pre = b0 :: pre1 := by
    cases pre with
    | nil => exact absurd rfl hpre
    | cons a l => exact ⟨a, l, rfl⟩
  have hL : forward (pre1.map (fun b => .Stream (.Data b))
        ++ .Stream (.Start r) :: post) (initState (.Data b0))
      = forward post
          { totalBytes := b0.length + (pre1.map List.length).sum
            events := []
            sink := b0 :: pre1
            responseSlot := some r } := by
    rw [forward_data_map_append]
    simp [initState, forward, putFirst]
  have he : handle_response ((b0 :: pre1).map (fun b => .Stream (.Data b))
        ++ .Stream (.Start r) :: post)
      = streamOutcome (forward (pre1.map (fun b => .Stream (.Data b))
          ++ .Stream (.Start r) :: post) (initState (.Data b0))) := rfl
  rw [he, hL]
  obtain ⟨t, ht⟩ := forward_sink_prefix post
      { totalBytes := b0.length + (pre1.map List.length).sum
        events := []
        sink := b0 :: pre1
        responseSlot := some r }
  have hslot : (forward post
      { totalBytes := b0.length + (pre1.map List.length).sum
        events := []
        sink := b0 :: pre1
        responseSlot := some r }).responseSlot = some r :=
    forward_responseSlot_some post _ r rfl
  constructor
  · exact ⟨t, by simp [streamOutcome, ht]⟩
  · refine ⟨_, streamOutcome_result_some _ r hslot, rfl, rfl, ⟨t.flatten, ?_⟩⟩
    rw [ht]
    simp

/-- C4 witness: a single early chunk before Start, nothing after. -/
theorem data_before_start_kept_witness :
    ([[1]] : List (List Nat)) ≠ []
    ∧ ((∃ t, (handle_response ([[1]].map (fun b => .Stream (.Data b))
        ++ .Stream (.Start ⟨200, [], []⟩) :: [])).sink = [[1]] ++ t)
      ∧ ∃ resp, (handle_response ([[1]].map (fun b => .Stream (.Data b))
          ++ .Stream (.Start ⟨200, [], []⟩) :: [])).result = .ok resp
        ∧ resp.status = Response.status ⟨200, [], []⟩
        ∧ resp.headers = Response.headers ⟨200, [], []⟩
        ∧ ∃ bt, resp.body = [[1]].flatten ++ bt) :=
  ⟨by decide, data_before_start_kept [[1]] (by decide) ⟨200, [], []⟩ []⟩

/-- C6 (amended): when the forwarder receives Stream(Done(elapsed)) it
emits Bytes(total, elapsed) and closes the body sink with the terminating
empty chunk, but the task does not stop there: the loop continues, and
subsequent Data chunks are still consumed and written to the sink after
the terminator; the task ends only at channel closure or at a non-stream
message. -/
theorem done_emits_and_continues (st : ForwardState) (e : Nat)
    (ds : List (List Nat)) :
    (forward (.Stream (.Done e) :: ds.map (fun b => .Stream (.Data b))) st).events
      = st.events ++ [.Bytes st.totalBytes (some e)]
    ∧ (forward (.Stream (.Done e) :: ds.map (fun b => .Stream (.Data b))) st).sink
      = st.sink ++ [[]] ++ ds := by
  have h1 : forward (.Stream (.Done e) :: ds.map (fun b => .Stream (.Data b))) st
      = forward (ds.map (fun b => .Stream (.Data b)))
          { st with
            events := st.events ++ [.Bytes st.totalBytes (some e)]
            sink := st.sink ++ [[]] } := by
    simp only [forward]
  rw [h1, forward_data_map]
  exact ⟨rfl, rfl⟩

/-- C6 counterexample: after a first Done the forwarder keeps consuming:
a second Done emits a second Bytes event, and a Data chunk arriving after
Done is still forwarded to the sink behind the terminating empty chunk. -/
theorem done_does_not_stop_cex :
    (handle_response [.Stream (.Start ⟨200, [], []⟩), .Stream (.Done 0),
        .Stream (.Done 1)]).events
      = [.Bytes 0 (some 0), .Bytes 0 (some 1)]
    ∧ (handle_response [.Stream (.Start ⟨200, [], []⟩), .Stream (.Done 0),
        .Stream (.Data [7])]).sink
      = [[], [7]] :=
  ⟨rfl, rfl⟩

/-- C9: if streaming mode was entered (first message Start or Data) and
the channel closes without a Done ever arriving, the forwarder loop simply
ends: no ResponseEvent of any kind is emitted for that closure. -/
theorem silent_closure_no_event (s : StreamResult)
    (hs : notDoneSignal s = true) (rest : List RunResult)
    (h : silentTail rest = true) :
    (handle_response (.Stream s :: rest)).events = [] := by
  have hev : (handle_response (.Stream s :: rest)).events
      = (forward rest (initState s)).events := rfl
  rw [hev, forward_events_silent rest _ h]
  cases s with
  | Start r => rfl
  | Data b => rfl
  | Done e => simp [notDoneSignal] at hs

/-- C9 witness: a Start followed by one Data chunk, channel closed. -/
theorem silent_closure_no_event_witness :
    notDoneSignal (.Start ⟨200, [], []⟩) = true
    ∧ silentTail [RunResult.Stream (.Data [1])] = true
    ∧ (handle_response (.Stream (.Start ⟨200, [], []⟩)
        :: [.Stream (.Data [1])])).events = [] :=
  ⟨by decide, by decide,
    silent_closure_no_event (.Start ⟨200, [], []⟩) (by decide)
      [.Stream (.Data [1])] (by decide)⟩

/-- C10: if the first channel message is a Stream signal other than Start
(Data or Done) and no Start ever arrives before the channel closes, the
handoff slot is never filled, so handle_response returns an error and the
caller never receives a response object. -/
theorem no_start_no_response (s : StreamResult)
    (hs : notStartSignal s = true) (rest : List RunResult)
    (h : noStart rest = true) :
    ∃ msg, (handle_response (.Stream s :: rest)).result = .error msg := by
  have he : (handle_response (.Stream s :: rest)).result
      = (streamOutcome (forward rest (initState s))).result := rfl
  refine ⟨"response handoff closed", ?_⟩
  rw [he]
  apply streamOutcome_result_none
  rw [forward_responseSlot_noStart rest _ h]
  cases s with
  | Start r => simp [notStartSignal] at hs
  | Data b => rfl
  | Done e => rfl

/-- C10 witness: a lone Data chunk, channel closed with no Start. -/
theorem no_start_no_response_witness :
    notStartSignal (.Data [1]) = true
    ∧ noStart ([] : List RunResult) = true
    ∧ ∃ msg, (handle_response (.Stream (.Data [1]) :: [])).result
        = .error msg :=
  ⟨by decide, by decide,
    no_start_no_response (.Data [1]) (by decide) [] (by decide)⟩

/-- C5 (amended): at most one ResponseEvent is emitted per translation
provided no channel traffic follows a terminal Done signal; on the
success and known-failure paths that report to the notifier (a buffered
response, Timeout, MemoryLimit, Error, a stream reaching Done or an
unexpected non-stream message, and the malformed lone Done) exactly one
is emitted, while NotFound, the empty channel and a stream closed without
a terminal condition emit none.  When messages do follow a Done the
forwarder keeps consuming them and each further Done or non-stream
message emits an additional event. -/
theorem at_most_one_event (msgs : List RunResult)
    (h : doneIsLast msgs = true) :
    (handle_response msgs).events.length ≤ 1
    ∧ (terminalOutcome msgs = true → (handle_response msgs).events.length = 1) := by
  cases msgs with
  | nil => simp [handle_response, terminalOutcome]
  | cons m rest =>
      cases m with
      | Stream s =>
          have hev : (handle_response (.Stream s :: rest)).events
              = (forward rest (initState s)).events := rfl
          cases s with
          | Start r =>
              have hd : doneIsLast rest = true := by simpa [doneIsLast] using h
              rw [hev, forward_events_length rest _ hd]
              have hterm : terminalOutcome (.Stream (.Start r) :: rest)
                  = tailTerminates rest := rfl
              rw [hterm]
              cases htt : tailTerminates rest <;> simp [initState, htt]
          | Data b =>
              have hd : doneIsLast rest = true := by simpa [doneIsLast] using h
              rw [hev, forward_events_length rest _ hd]
              have hterm : terminalOutcome (.Stream (.Data b) :: rest)
                  = tailTerminates rest := rfl
              rw [hterm]
              cases htt : tailTerminates rest <;> simp [initState, htt]
          | Done e =>
              have hrest : rest = [] := by
                simpa [doneIsLast, List.isEmpty_iff] using h
              subst hrest
              exact ⟨by rw [hev]; rfl, fun _ => by rw [hev]; rfl⟩
      | Response r e2 => exact ⟨by rfl, fun _ => rfl⟩
      | Timeout => exact ⟨by rfl, fun _ => rfl⟩
      | MemoryLimit => exact ⟨by rfl, fun _ => rfl⟩
      | Error d => exact ⟨by rfl, fun _ => rfl⟩
      | NotFound => exact ⟨by simp [handle_response], fun hc => by cases hc⟩

/-- C5 witness: a lone Timeout message. -/
theorem at_most_one_event_witness :
    doneIsLast [RunResult.Timeout] = true
    ∧ ((handle_response [RunResult.Timeout]).events.length ≤ 1
      ∧ (terminalOutcome [RunResult.Timeout] = true
          → (handle_response [RunResult.Timeout]).events.length = 1)) :=
  ⟨by decide, at_most_one_event [RunResult.Timeout] (by decide)⟩

/-- C5 counterexample: two consecutive lone Done signals make the
translator emit StreamDoneNoDataError and the forwarder emit a further
Bytes event — two ResponseEvents in one translation. -/
theorem double_done_two_events_cex :
    (handle_response [.Stream (.Done 0), .Stream (.Done 0)]).events
      = [.StreamDoneNoDataError, .Bytes 0 (some 0)]
    ∧ (handle_response [.Stream (.Done 0), .Stream (.Done 0)]).events.length = 2 :=
  ⟨rfl, rfl⟩

/-- C1 (amended): if the first and only channel message is Stream(Done(_)),
handle_response emits exactly one StreamDoneNoDataError event and closes
the body sink with the empty terminating chunk, but it does not return a
response object: no Start ever fills the response handoff, so the final
handoff receive fails and an error is returned to the caller. -/
theorem done_only_amended (e : Nat) :
    (handle_response [.Stream (.Done e)]).events = [.StreamDoneNoDataError]
    ∧ (handle_response [.Stream (.Done e)]).sink = [[]]
    ∧ ∃ msg, (handle_response [.Stream (.Done e)]).result = .error msg :=
  ⟨rfl, rfl, ⟨"response handoff closed", rfl⟩⟩

/-- C1 counterexample: for the single message Stream(Done(0)) the event is
emitted, but the translation result is an error, not a response object
with an empty body as the claim states. -/
theorem done_only_no_response_cex :
    (handle_response [.Stream (.Done 0)]).events = [.StreamDoneNoDataError]
    ∧ ¬ ∃ resp, (handle_response [.Stream (.Done 0)]).result = Except.ok resp := by
  refine ⟨rfl, ?_⟩
  rintro ⟨resp, hr⟩
  have hres : (handle_response [RunResult.Stream (.Done 0)]).result
      = Except.error "response handoff closed" := rfl
  rw [hres] at hr
  exact Except.noConfusion hr
